import Mathlib

/-!
Verification development for the resilient ingestion and gap-reconciliation
engine of the E2E-PoE-DA system.

The definitions below are a shallow embedding of the two source modules the
claims are about:

* `collector/connection_manager.py` — the `HTTPClient` transport with retry,
  exponential backoff with jitter, and a per-endpoint circuit breaker.
* `collector/parsers/historical_backfill.py` — the `HistoricalBackfiller`
  that detects per-day gaps and synthesizes canonical price records.

Modelling conventions:
* Wall-clock time is a rational number passed explicitly to each call; a
  single `get` call is treated as instantaneous (all its internal
  `time.time()` reads return the call's `now`).
* Network behaviour is an oracle `outcomes : ℕ → NetOutcome` giving the
  result of the n-th `session.get` attempt, and `jitter : ℕ → ℚ` gives the
  value drawn by `random.uniform(0, 1)` before each retry.
* Python dicts keyed by strings are total functions with default values
  (`dict.get(k, 0)` semantics); `_circuit_open_until` membership is an
  `Option`.  Setting a failure counter to `0` and the key being absent are
  extensionally identical, so `record_success` always writes `0`.
* Calendar dates are integers (a day index); `daysAgo` offsets from the
  upstream API are natural numbers.
-/

namespace PoEDA

/-! ## Resilient transport (`connection_manager.py`) -/

/-- Configuration attributes of `HTTPClient.__init__` that the claims
mention.  Connection-pool sizes and timeouts do not influence the control
flow being verified and are omitted. -/
structure HTTPClient where
  max_retries : ℕ
  backoff_factor : ℚ
  enable_circuit_breaker : Bool
  circuit_breaker_threshold : ℕ
  circuit_breaker_timeout : ℚ

/-- The mutable circuit-breaker state of an `HTTPClient` instance:
`_failure_counts` and `_circuit_open_until`. -/
structure CBState where
  failure_counts : String → ℕ
  circuit_open_until : String → Option ℚ

/-- A URL, reduced to the parts `_get_circuit_key` inspects
(`urlparse(url).netloc` and `.path`). -/
structure Url where
  netloc : String
  path : String

/-- `HTTPClient._get_circuit_key`: `f"{parsed.netloc}{parsed.path}"`. -/
def circuit_key (u : Url) : String := u.netloc ++ u.path

/-- The state written by the expired-circuit branch of
`_check_circuit_breaker`: the failure counter is set to `0` and the
`open_until` entry is deleted. -/
def cb_reset (st : CBState) (key : String) : CBState :=
  { failure_counts := fun k => if k = key then 0 else st.failure_counts k
    circuit_open_until := fun k => if k = key then none else st.circuit_open_until k }

/-- `HTTPClient._check_circuit_breaker`, returning whether the request must
short-circuit together with the (possibly reset) state. -/
def check_circuit_breaker (cfg : HTTPClient) (st : CBState) (key : String) (now : ℚ) :
    Bool × CBState :=
  if cfg.enable_circuit_breaker = false then (false, st)
  else
    match st.circuit_open_until key with
    | none => (false, st)
    | some u => if now < u then (true, st) else (false, cb_reset st key)

/-- `HTTPClient._record_failure`: increment the per-key counter and open the
circuit (`open_until = now + circuit_breaker_timeout`) once the counter
reaches `circuit_breaker_threshold`. -/
def record_failure (cfg : HTTPClient) (st : CBState) (key : String) (now : ℚ) : CBState :=
  if cfg.enable_circuit_breaker = false then st
  else
    let c := st.failure_counts key + 1
    { failure_counts := fun k => if k = key then c else st.failure_counts k
      circuit_open_until :=
        if cfg.circuit_breaker_threshold ≤ c then
          fun k => if k = key then some (now + cfg.circuit_breaker_timeout)
                   else st.circuit_open_until k
        else st.circuit_open_until }

/-- `HTTPClient._record_success`: reset the per-key failure counter. -/
def record_success (cfg : HTTPClient) (st : CBState) (key : String) : CBState :=
  if cfg.enable_circuit_breaker = false then st
  else { st with failure_counts := fun k => if k = key then 0 else st.failure_counts k }

/-- Result of one `session.get` attempt: a response with a status code, or
one of the caught `requests` exception classes. -/
inductive NetOutcome where
  | resp (status : ℕ)
  | timeout
  | connError
  | httpError
  | reqError
deriving DecidableEq

/-- Observable trace of one `HTTPClient.get` call: the returned value
(`some status` for a response, `none` for failure), the circuit-breaker
state after the call, the number of `session.get` network attempts made,
and the list of back-off sleeps performed (in order). -/
structure GetTrace where
  result : Option ℕ
  state : CBState
  attempts : ℕ
  sleeps : List ℚ

/-- How one loop iteration of `HTTPClient.get` treats the attempt outcome:
a status `< 400` is a success; a 4xx status other than 429 is a
non-retryable failure (return `None` immediately); every other status
raises `HTTPError`, which — like the `Timeout` / `ConnectionError` /
`RequestException` handlers — falls through to the retry logic. -/
inductive AttemptClass where
  | success (status : ℕ)
  | hardFail (status : ℕ)
  | softFail
deriving DecidableEq

/-- The status-code / exception dispatch of the loop body of
`HTTPClient.get` (lines 226–257 of `connection_manager.py`). -/
def classify_attempt : NetOutcome → AttemptClass
  | .resp s =>
    if s < 400 then .success s
    else if s < 500 ∧ s ≠ 429 then .hardFail s
    else .softFail
  | _ => .softFail

/-- One iteration of the attempt loop of `HTTPClient.get`, given the
classified outcome of the current attempt, the 0-based attempt index, the
number of iterations that would remain after this one, and the trace of
the remaining iterations (consulted only on a retryable failure with
iterations left, where the loop sleeps
`backoff_factor * 2 ^ attempt + uniform(0, 1)` before continuing — so no
sleep ever follows the final attempt). -/
def loop_step (cfg : HTTPClient) (key : String) (jitter : ℕ → ℚ) (now : ℚ) (st : CBState)
    (c : AttemptClass) (attempt remaining : ℕ) (rest : GetTrace) : GetTrace :=
  match c with
  | .success s =>
    { result := some s, state := record_success cfg st key, attempts := 1, sleeps := [] }
  | .hardFail _ =>
    { result := none, state := record_failure cfg st key now, attempts := 1, sleeps := [] }
  | .softFail =>
    if remaining = 0 then
      { result := none, state := record_failure cfg st key now, attempts := 1, sleeps := [] }
    else
      { result := rest.result, state := rest.state, attempts := rest.attempts + 1,
        sleeps := (cfg.backoff_factor * 2 ^ attempt + jitter attempt) :: rest.sleeps }

/-- The `for attempt in range(self.max_retries + 1)` loop of
`HTTPClient.get`.  `attempt` is the current 0-based attempt index and
`remaining` the number of loop iterations left after the current one; the
state `st` is only read during the loop and written exactly once at an
exit point (`_record_success` or `_record_failure`).  The `remaining = 0`
pattern is the fall-through after the loop exhausts all attempts. -/
def get_loop (cfg : HTTPClient) (key : String) (outcomes : ℕ → NetOutcome)
    (jitter : ℕ → ℚ) (now : ℚ) (st : CBState) : ℕ → ℕ → GetTrace
  | _, 0 =>
    { result := none, state := record_failure cfg st key now, attempts := 0, sleeps := [] }
  | attempt, remaining + 1 =>
    loop_step cfg key jitter now st (classify_attempt (outcomes attempt)) attempt remaining
      (get_loop cfg key outcomes jitter now st (attempt + 1) remaining)

/-- `HTTPClient.get`: check the circuit breaker, then run the attempt
loop. -/
def HTTPClient.get (cfg : HTTPClient) (st : CBState) (url : Url)
    (outcomes : ℕ → NetOutcome) (jitter : ℕ → ℚ) (now : ℚ) : GetTrace :=
  match check_circuit_breaker cfg st (circuit_key url) now with
  | (true, st1) => { result := none, state := st1, attempts := 0, sleeps := [] }
  | (false, st1) =>
    get_loop cfg (circuit_key url) outcomes jitter now st1 0 (cfg.max_retries + 1)

/-! ## Historical backfill (`parsers/historical_backfill.py`) -/

/-- A stored timestamp: a calendar-day index plus a time-of-day offset.
`datetime.combine(entry_date, datetime.min.time())` is `⟨entry_date, 0⟩`
(midnight). -/
structure Timestamp where
  day : ℤ
  tod : ℚ
deriving DecidableEq

/-- SQL `DATE(timestamp)`: the calendar-day part of a timestamp. -/
def date_of (t : Timestamp) : ℤ := t.day

/-- One entry of an upstream history graph: `{daysAgo, value, count}`.
`daysAgo` may be absent (`dict.get('daysAgo')` returning `None`); `value`
and `count` default to `0` when absent, so they are stored directly. -/
structure GraphEntry where
  daysAgo : Option ℕ
  value : ℚ
  count : ℤ
deriving DecidableEq

/-- `pay_entry.get('value', 0) if pay_entry else 0`. -/
def entry_value (e : Option GraphEntry) : ℚ :=
  match e with
  | some e => e.value
  | none => 0

/-- `pay_entry.get('count', 0) if pay_entry else 0`. -/
def entry_count (e : Option GraphEntry) : ℤ :=
  match e with
  | some e => e.count
  | none => 0

/-- Python's `round` on rationals: round half to even. -/
def round_half_even (q : ℚ) : ℤ :=
  let f := ⌊q⌋
  let r := q - (f : ℚ)
  if r < 1 / 2 then f
  else if 1 / 2 < r then f + 1
  else if f % 2 = 0 then f else f + 1

/-- `round(x, 6)`: round to 6 decimal places, half to even. -/
def round_to_6 (q : ℚ) : ℚ := (round_half_even (q * 1000000) : ℚ) / 1000000

/-- A row of the `currency_prices` table as built by the backfiller. -/
structure CurrencyRecord where
  timestamp : Timestamp
  league_id : ℤ
  currency_name : String
  details_id : Option ℤ
  chaos_equivalent : ℚ
  pay_value : Option ℚ
  receive_value : Option ℚ
  trade_count : Option ℤ
deriving DecidableEq

/-- `HistoricalBackfiller._process_currency_entry_both`.  The `weights`
list computed by the source is dead code (the weighted-mean line is
commented out), so it is not modelled. -/
def process_currency_entry_both (league_id : ℤ) (pay_entry receive_entry : Option GraphEntry)
    (currency_name : String) (entry_date : ℤ) : Option CurrencyRecord :=
  if pay_entry = none ∧ receive_entry = none then none
  else
    let pay_value := entry_value pay_entry
    let pay_count := entry_count pay_entry
    let receive_value := entry_value receive_entry
    let receive_count := entry_count receive_entry
    let values : List ℚ :=
      (if 0 < pay_value then [1 / pay_value] else []) ++
      (if 0 < receive_value ∧ 0 < receive_count then [receive_value] else [])
    if values = [] then none
    else
      some
        { timestamp := ⟨entry_date, 0⟩
          league_id := league_id
          currency_name := currency_name
          details_id := none
          chaos_equivalent := round_to_6 (values.sum / (values.length : ℚ))
          pay_value := if 0 < pay_value then some (round_to_6 (1 / pay_value)) else none
          receive_value :=
            if 0 < receive_value ∧ 0 < receive_count then some (round_to_6 receive_value)
            else none
          trade_count :=
            if pay_count ≠ 0 ∨ receive_count ≠ 0 then some (max pay_count receive_count)
            else none }

/-- Insert into a Python dict represented as an association list with
unique keys kept in insertion order: overwrite in place if the key is
present, append otherwise. -/
def dict_insert (m : List (ℕ × GraphEntry)) (k : ℕ) (v : GraphEntry) :
    List (ℕ × GraphEntry) :=
  if m.any (fun p => p.1 = k) then m.map (fun p => if p.1 = k then (k, v) else p)
  else m ++ [(k, v)]

/-- `{e['daysAgo']: e for e in graph if 'daysAgo' in e}`. -/
def graph_by_day (graph : List GraphEntry) : List (ℕ × GraphEntry) :=
  graph.foldl
    (fun m e =>
      match e.daysAgo with
      | none => m
      | some d => dict_insert m d e)
    []

/-- Insert a value into an ascending list, keeping it sorted. -/
def insert_sorted (x : ℕ) : List ℕ → List ℕ
  | [] => [x]
  | y :: ys => if x ≤ y then x :: y :: ys else y :: insert_sorted x ys

/-- `sorted(...)` applied to a list of day offsets. -/
def sort_days (l : List ℕ) : List ℕ := l.foldr insert_sorted []

/-- `set(receive_by_day.keys()) | set(pay_by_day.keys())`. -/
def all_days (receive_by_day pay_by_day : List (ℕ × GraphEntry)) : List ℕ :=
  (receive_by_day.map Prod.fst ++ pay_by_day.map Prod.fst).dedup

/-- Body of `_backfill_single_currency`'s per-day loop: the horizon guard,
the existing-date guard, and the reconciler call. -/
def backfill_day_currency (league_id : ℤ) (currency_name : String)
    (pay_by_day receive_by_day : List (ℕ × GraphEntry)) (existing_dates : List ℤ)
    (max_days_back : ℕ) (today : ℤ) (days_ago : ℕ) : Option CurrencyRecord :=
  if max_days_back < days_ago then none
  else if today - (days_ago : ℤ) ∈ existing_dates then none
  else
    process_currency_entry_both league_id (pay_by_day.lookup days_ago)
      (receive_by_day.lookup days_ago) currency_name (today - (days_ago : ℤ))

/-- `HistoricalBackfiller._backfill_single_currency`, returning the list of
records it inserts.  `existing_dates` stands for
`_get_existing_currency_dates(currency_name)`, which is constant during
the loop (inserts happen only after it). -/
def backfill_single_currency (league_id : ℤ) (currency_name : String)
    (pay_graph receive_graph : List GraphEntry) (existing_dates : List ℤ)
    (max_days_back : ℕ) (today : ℤ) : List CurrencyRecord :=
  let receive_by_day := graph_by_day receive_graph
  let pay_by_day := graph_by_day pay_graph
  (sort_days (all_days receive_by_day pay_by_day)).filterMap
    (backfill_day_currency league_id currency_name pay_by_day receive_by_day
      existing_dates max_days_back today)

/-- A row of the `divination_cards` table as built by the backfiller. -/
structure CardRecord where
  timestamp : Timestamp
  league_id : ℤ
  card_name : String
  stack_size : Option ℤ
  chaos_value : ℚ
  trade_count : ℤ
  details_id : Option ℤ
deriving DecidableEq

/-- `HistoricalBackfiller._process_card_entry` (its `try` body cannot fail
on well-typed input, so the result is always `some`; the `Option` keeps
the source's shape). -/
def process_card_entry (league_id : ℤ) (entry : GraphEntry) (card_name : String)
    (entry_date : ℤ) : Option CardRecord :=
  some
    { timestamp := ⟨entry_date, 0⟩
      league_id := league_id
      card_name := card_name
      stack_size := none
      chaos_value := entry.value
      trade_count := entry.count
      details_id := none }

/-- Body of `_backfill_single_card`'s per-entry loop. -/
def backfill_day_card (league_id : ℤ) (card_name : String) (existing_dates : List ℤ)
    (max_days_back : ℕ) (today : ℤ) (entry : GraphEntry) : Option CardRecord :=
  match entry.daysAgo with
  | none => none
  | some days_ago =>
    if max_days_back < days_ago then none
    else if today - (days_ago : ℤ) ∈ existing_dates then none
    else process_card_entry league_id entry card_name (today - (days_ago : ℤ))

/-- `HistoricalBackfiller._backfill_single_card`, returning the list of
records it inserts.  `existing_dates` is fetched once before the loop in
the source. -/
def backfill_single_card (league_id : ℤ) (card_name : String) (existing_dates : List ℤ)
    (historical_data : Option (List GraphEntry)) (max_days_back : ℕ) (today : ℤ) :
    List CardRecord :=
  match historical_data with
  | none => []
  | some entries =>
    entries.filterMap (backfill_day_card league_id card_name existing_dates max_days_back today)

/-- A row of the `unique_items` table as built by the backfiller. -/
structure ItemRecord where
  timestamp : Timestamp
  league_id : ℤ
  item_name : String
  base_type : Option String
  item_type : Option String
  level_required : Option ℤ
  chaos_value : ℚ
  links : Option ℤ
  details_id : Option ℤ
deriving DecidableEq

/-- `HistoricalBackfiller._process_item_entry`. -/
def process_item_entry (league_id : ℤ) (entry : GraphEntry) (item_name : String)
    (entry_date : ℤ) : Option ItemRecord :=
  some
    { timestamp := ⟨entry_date, 0⟩
      league_id := league_id
      item_name := item_name
      base_type := none
      item_type := none
      level_required := none
      chaos_value := entry.value
      links := none
      details_id := none }

/-- Body of `_backfill_single_item`'s per-entry loop. -/
def backfill_day_item (league_id : ℤ) (item_name : String) (existing_dates : List ℤ)
    (max_days_back : ℕ) (today : ℤ) (entry : GraphEntry) : Option ItemRecord :=
  match entry.daysAgo with
  | none => none
  | some days_ago =>
    if max_days_back < days_ago then none
    else if today - (days_ago : ℤ) ∈ existing_dates then none
    else process_item_entry league_id entry item_name (today - (days_ago : ℤ))

/-- `HistoricalBackfiller._backfill_single_item`, returning the list of
records it inserts. -/
def backfill_single_item (league_id : ℤ) (item_name : String) (existing_dates : List ℤ)
    (historical_data : Option (List GraphEntry)) (max_days_back : ℕ) (today : ℤ) :
    List ItemRecord :=
  match historical_data with
  | none => []
  | some entries =>
    entries.filterMap (backfill_day_item league_id item_name existing_dates max_days_back today)

/-! ## Orchestrator (`backfill_currency` / `backfill_divination_cards` /
`backfill_unique_items` / `backfill_all`) -/

/-- One entry of the upstream current-snapshot catalog, reduced to the
fields the name↦id mappers read: `detail.get('name')` and
`detail.get('id')` (`id` may be absent; an absent name behaves like any
name not stored in the database, so it is kept as a plain string). -/
structure Detail where
  name : String
  id : Option ℤ
deriving DecidableEq

/-- Python-dict insert for the `name_to_id_map` association list. -/
def detail_dict_insert (m : List (String × ℤ)) (k : String) (v : ℤ) :
    List (String × ℤ) :=
  if m.any (fun p => p.1 = k) then m.map (fun p => if p.1 = k then (k, v) else p)
  else m ++ [(k, v)]

/-- `_map_currency_names_to_ids` / `_map_card_names_to_ids` /
`_map_item_names_to_ids`: skip entries with a falsy id (`None` or `0`),
keep entries whose name exactly matches a stored name. -/
def map_names_to_ids (details : List Detail) (existing_names : List String) :
    List (String × ℤ) :=
  details.foldl
    (fun m d =>
      match d.id with
      | none => m
      | some i =>
        if i = 0 then m
        else if d.name ∈ existing_names then detail_dict_insert m d.name i
        else m)
    []

/-- The per-entity loop shared by the three `backfill_*` category drivers.
`f name api_id` abstracts `_backfill_single_*` (the records inserted for
that entity, or the exception it raised — caught and skipped by the loop).
When `skip_base` is set, the entity with `api_id = 1` (Chaos Orb, the base
currency) is skipped. -/
def category_loop (skip_base : Bool) (f : String → ℤ → Except String ℕ) :
    List (String × ℤ) → ℕ × ℕ
  | [] => (0, 0)
  | (name, api_id) :: rest =>
    if skip_base ∧ api_id = 1 then category_loop skip_base f rest
    else
      match f name api_id with
      | .error _ => category_loop skip_base f rest
      | .ok records =>
        let acc := category_loop skip_base f rest
        if 0 < records then (acc.1 + 1, acc.2 + records) else acc

/-- Common skeleton of `backfill_currency` / `backfill_divination_cards` /
`backfill_unique_items`: a failed or empty catalog fetch yields `(0, 0)`,
an empty name↦id map yields `(0, 0)`, otherwise the per-entity loop
runs. -/
def backfill_category (catalog : Option (List Detail)) (existing_names : List String)
    (skip_base : Bool) (f : String → ℤ → Except String ℕ) : ℕ × ℕ :=
  match catalog with
  | none => (0, 0)
  | some details =>
    if details = [] then (0, 0)
    else
      let m := map_names_to_ids details existing_names
      if m = [] then (0, 0) else category_loop skip_base f m

/-- `HistoricalBackfiller.backfill_currency` (skips Chaos Orb, id 1). -/
def backfill_currency (catalog : Option (List Detail)) (existing_names : List String)
    (f : String → ℤ → Except String ℕ) : ℕ × ℕ :=
  backfill_category catalog existing_names true f

/-- `HistoricalBackfiller.backfill_divination_cards`. -/
def backfill_divination_cards (catalog : Option (List Detail))
    (existing_names : List String) (f : String → ℤ → Except String ℕ) : ℕ × ℕ :=
  backfill_category catalog existing_names false f

/-- `HistoricalBackfiller.backfill_unique_items`. -/
def backfill_unique_items (catalog : Option (List Detail))
    (existing_names : List String) (f : String → ℤ → Except String ℕ) : ℕ × ℕ :=
  backfill_category catalog existing_names false f

/-- `HistoricalBackfiller.__init__`: `_get_league_id` yields `None` on a
missing row or database error, and `if not self.league_id` raises
`ValueError` (also for the falsy id `0`). -/
def mk_backfiller (league_row : Option ℤ) : Except String ℤ :=
  match league_row with
  | none => Except.error "league not found"
  | some i => if i = 0 then Except.error "league not found" else Except.ok i

/-- The per-category result dictionary of `backfill_all`. -/
structure BackfillResults where
  currency : ℕ × ℕ
  divination_cards : ℕ × ℕ
  unique_items : ℕ × ℕ
deriving DecidableEq

/-- `HistoricalBackfiller.backfill_all`: run the three categories in
sequence and collect their `(items_processed, records_inserted)` pairs. -/
def backfill_all (currency_catalog card_catalog item_catalog : Option (List Detail))
    (currency_names card_names item_names : List String)
    (fc fd fi : String → ℤ → Except String ℕ) : BackfillResults :=
  { currency := backfill_currency currency_catalog currency_names fc
    divination_cards := backfill_divination_cards card_catalog card_names fd
    unique_items := backfill_unique_items item_catalog item_names fi }

/-! ## Claims about the value reconciler -/

/-- Helper: the implied-rate list built by `_process_currency_entry_both`
(`values` in the source). -/
def implied_rates (pay_entry receive_entry : Option GraphEntry) : List ℚ :=
  (if 0 < entry_value pay_entry then [1 / entry_value pay_entry] else []) ++
  (if 0 < entry_value receive_entry ∧ 0 < entry_count receive_entry then
    [entry_value receive_entry]
  else [])

lemma process_currency_entry_both_eq (league_id : ℤ)
    (pay_entry receive_entry : Option GraphEntry) (currency_name : String) (entry_date : ℤ) :
    process_currency_entry_both league_id pay_entry receive_entry currency_name entry_date =
      if implied_rates pay_entry receive_entry = [] then none
      else
        some
          { timestamp := ⟨entry_date, 0⟩
            league_id := league_id
            currency_name := currency_name
            details_id := none
            chaos_equivalent :=
              round_to_6 ((implied_rates pay_entry receive_entry).sum /
                ((implied_rates pay_entry receive_entry).length : ℚ))
            pay_value :=
              if 0 < entry_value pay_entry then some (round_to_6 (1 / entry_value pay_entry))
              else none
            receive_value :=
              if 0 < entry_value receive_entry ∧ 0 < entry_count receive_entry then
                some (round_to_6 (entry_value receive_entry))
              else none
            trade_count :=
              if entry_count pay_entry ≠ 0 ∨ entry_count receive_entry ≠ 0 then
                some (max (entry_count pay_entry) (entry_count receive_entry))
              else none } := by
  by_cases h0 : pay_entry = none ∧ receive_entry = none
  · simp [process_currency_entry_both, h0.1, h0.2, implied_rates, entry_value, entry_count]
  · simp only [process_currency_entry_both, implied_rates, if_neg h0]

/-- Claim C1, counterexample to the claim as stated: with only a pay side of
value 3, the implied-rate mean is `1/3`, but the stored `chaos_equivalent` is
`round(1/3, 6) = 0.333333 ≠ 1/3` — the source rounds the mean to 6 decimal
places before storing it. -/
theorem claim_C1_counterexample :
    (process_currency_entry_both 1 (some ⟨some 0, 3, 1⟩) none "Chromatic Orb" 0).map
        CurrencyRecord.chaos_equivalent = some (333333 / 1000000) ∧
    (333333 / 1000000 : ℚ) ≠ 1 / 3 := by
  constructor
  · norm_num [process_currency_entry_both, entry_value, entry_count, round_to_6,
      round_half_even]
    exact ⟨_, ⟨by simp, rfl⟩, rfl⟩
  · norm_num

/-- Claim C1 (amended): for every currency day, the reconciler returns nothing
exactly when neither side is usable (`pay_value ≤ 0` or absent, and no receive
side with `receive_value > 0` and `receive_count > 0`); otherwise it returns a
record whose `chaos_equivalent` is the unweighted arithmetic mean of the 1 or 2
implied rates — `1/pay_value` when `pay_value > 0`, `receive_value` when
`receive_value > 0 ∧ receive_count > 0` — rounded to 6 decimal places.  In
particular `pay_value = 100, receive_value = 0.008, receive_count = 5` yields
`chaos_equivalent = mean(1/100, 0.008) = 0.009`. -/
theorem claim_C1 (league_id : ℤ) (pay_entry receive_entry : Option GraphEntry)
    (currency_name : String) (entry_date : ℤ) :
    (process_currency_entry_both league_id pay_entry receive_entry currency_name entry_date
        = none ↔
      ¬ 0 < entry_value pay_entry ∧
        ¬ (0 < entry_value receive_entry ∧ 0 < entry_count receive_entry)) ∧
    (∀ r,
      process_currency_entry_both league_id pay_entry receive_entry currency_name entry_date
          = some r →
      r.chaos_equivalent =
        if 0 < entry_value pay_entry then
          if 0 < entry_value receive_entry ∧ 0 < entry_count receive_entry then
            round_to_6 ((1 / entry_value pay_entry + entry_value receive_entry) / 2)
          else round_to_6 (1 / entry_value pay_entry)
        else round_to_6 (entry_value receive_entry)) ∧
    (process_currency_entry_both 1 (some ⟨some 0, 100, 7⟩) (some ⟨some 0, 8 / 1000, 5⟩)
        "Exalted Orb" 0).map CurrencyRecord.chaos_equivalent = some (9 / 1000) := by
  refine ⟨?_, ?_, ?_⟩
  · rw [process_currency_entry_both_eq]
    by_cases hp : 0 < entry_value pay_entry <;>
      by_cases hr : 0 < entry_value receive_entry ∧ 0 < entry_count receive_entry <;>
        simp [implied_rates, hp, hr]
  · intro r hr'
    rw [process_currency_entry_both_eq] at hr'
    by_cases hp : 0 < entry_value pay_entry <;>
      by_cases hr : 0 < entry_value receive_entry ∧ 0 < entry_count receive_entry
    · simp only [implied_rates, if_pos hp, if_pos hr, List.cons_append, List.nil_append,
        reduceCtorEq, ite_false, Option.some.injEq] at hr'
      subst hr'
      simp [hp, hr, List.sum_cons, List.sum_nil]
    · simp only [implied_rates, if_pos hp, if_neg hr, List.append_nil, reduceCtorEq,
        ite_false, Option.some.injEq] at hr'
      subst hr'
      simp [hp, hr, List.sum_cons, List.sum_nil]
    · simp only [implied_rates, if_neg hp, if_pos hr, List.nil_append, reduceCtorEq,
        ite_false, Option.some.injEq] at hr'
      subst hr'
      simp [hp, hr, List.sum_cons, List.sum_nil]
    · simp [implied_rates, hp, hr] at hr'
  · norm_num [process_currency_entry_both, entry_value, entry_count, round_to_6,
      round_half_even]
    exact ⟨_, ⟨⟨by simp, by simp, rfl⟩, rfl⟩⟩

/-- Witness for `claim_C1`: a concrete day with only a usable pay side of
value 2; the reconciler produces a record and its `chaos_equivalent` is the
rounded single-rate mean `round(1/2, 6) = 1/2`. -/
theorem claim_C1_witness :
    CurrencyRecord.chaos_equivalent
        { timestamp := ⟨5, 0⟩, league_id := 1, currency_name := "Vaal Orb",
          details_id := none, chaos_equivalent := 1 / 2, pay_value := some (1 / 2),
          receive_value := none, trade_count := some 3 } =
      if 0 < entry_value (some ⟨some 0, 2, 3⟩) then
        if 0 < entry_value none ∧ 0 < entry_count none then
          round_to_6 ((1 / entry_value (some ⟨some 0, 2, 3⟩) + entry_value none) / 2)
        else round_to_6 (1 / entry_value (some ⟨some 0, 2, 3⟩))
      else round_to_6 (entry_value none) :=
  (claim_C1 1 (some ⟨some 0, 2, 3⟩) none "Vaal Orb" 5).2.1 _
    (by
      norm_num [process_currency_entry_both, entry_value, entry_count, round_to_6,
        round_half_even]
      exact fun h => absurd h (by simp))

/-- Claim C8, counterexample to the claim as stated: for `pay_value = 100`
the record's `pay_value` field stores `round(1/100, 6) = 0.01` — the rounded
*reciprocal* (implied pay-side rate), not the rounded pay value `100`. -/
theorem claim_C8_counterexample :
    (process_currency_entry_both 1 (some ⟨some 0, 100, 10⟩) none "Divine Orb" 0).map
        CurrencyRecord.pay_value = some (some (1 / 100)) ∧
    (1 / 100 : ℚ) ≠ round_to_6 100 := by
  constructor
  · norm_num [process_currency_entry_both, entry_value, entry_count, round_to_6,
      round_half_even]
    exact ⟨_, ⟨by simp, rfl⟩, rfl⟩
  · norm_num [round_to_6, round_half_even]

/-- Claim C8 (amended): every currency record the reconciler produces stores
the rounded reciprocal of the pay value (`round(1/pay_value, 6)`, the pay-side
implied rate) and the rounded receive value alongside the canonical
`chaos_equivalent`, each side null when that side is unusable, and its
`trade_count` equals the maximum of the pay-side and receive-side trade
counts (null when both counts are zero or absent). -/
theorem claim_C8 (league_id : ℤ) (pay_entry receive_entry : Option GraphEntry)
    (currency_name : String) (entry_date : ℤ) (r : CurrencyRecord)
    (h : process_currency_entry_both league_id pay_entry receive_entry currency_name
        entry_date = some r) :
    r.pay_value =
      (if 0 < entry_value pay_entry then some (round_to_6 (1 / entry_value pay_entry))
       else none) ∧
    r.receive_value =
      (if 0 < entry_value receive_entry ∧ 0 < entry_count receive_entry then
        some (round_to_6 (entry_value receive_entry))
       else none) ∧
    r.trade_count =
      (if entry_count pay_entry ≠ 0 ∨ entry_count receive_entry ≠ 0 then
        some (max (entry_count pay_entry) (entry_count receive_entry))
       else none) := by
  rw [process_currency_entry_both_eq] at h
  by_cases hn : implied_rates pay_entry receive_entry = []
  · simp [hn] at h
  · simp only [if_neg hn, Option.some.injEq] at h
    subst h
    exact ⟨rfl, rfl, rfl⟩

/-- Witness for `claim_C8`: the concrete day `pay = (value 100, count 10)`,
`receive = (value 0.008, count 5)` yields a record whose sides are the rounded
implied pay rate `0.01` and rounded receive value `0.008`, with
`trade_count = max(10, 5) = 10`. -/
theorem claim_C8_witness :
    CurrencyRecord.pay_value
        { timestamp := ⟨0, 0⟩, league_id := 1, currency_name := "Exalted Orb",
          details_id := none, chaos_equivalent := 9 / 1000, pay_value := some (1 / 100),
          receive_value := some (1 / 125), trade_count := some 10 } =
      (if 0 < entry_value (some ⟨some 0, 100, 10⟩) then
        some (round_to_6 (1 / entry_value (some ⟨some 0, 100, 10⟩)))
       else none) ∧
    CurrencyRecord.receive_value
        { timestamp := ⟨0, 0⟩, league_id := 1, currency_name := "Exalted Orb",
          details_id := none, chaos_equivalent := 9 / 1000, pay_value := some (1 / 100),
          receive_value := some (1 / 125), trade_count := some 10 } =
      (if 0 < entry_value (some ⟨some 0, 8 / 1000, 5⟩) ∧
          0 < entry_count (some ⟨some 0, 8 / 1000, 5⟩) then
        some (round_to_6 (entry_value (some ⟨some 0, 8 / 1000, 5⟩)))
       else none) ∧
    CurrencyRecord.trade_count
        { timestamp := ⟨0, 0⟩, league_id := 1, currency_name := "Exalted Orb",
          details_id := none, chaos_equivalent := 9 / 1000, pay_value := some (1 / 100),
          receive_value := some (1 / 125), trade_count := some 10 } =
      (if entry_count (some ⟨some 0, 100, 10⟩) ≠ 0 ∨
          entry_count (some ⟨some 0, 8 / 1000, 5⟩) ≠ 0 then
        some (max (entry_count (some ⟨some 0, 100, 10⟩))
          (entry_count (some ⟨some 0, 8 / 1000, 5⟩)))
       else none) :=
  claim_C8 1 (some ⟨some 0, 100, 10⟩) (some ⟨some 0, 8 / 1000, 5⟩) "Exalted Orb" 0 _
    (by
      norm_num [process_currency_entry_both, entry_value, entry_count, round_to_6,
        round_half_even]
      refine ⟨fun h => ?_, fun h => ?_⟩ <;> simp at h)

/-! ## Claims about gap detection and idempotence -/

lemma process_currency_some_timestamp {league_id : ℤ}
    {pay_entry receive_entry : Option GraphEntry} {currency_name : String} {entry_date : ℤ}
    {r : CurrencyRecord}
    (h : process_currency_entry_both league_id pay_entry receive_entry currency_name
        entry_date = some r) :
    r.timestamp = ⟨entry_date, 0⟩ := by
  rw [process_currency_entry_both_eq] at h
  by_cases hn : implied_rates pay_entry receive_entry = []
  · simp [hn] at h
  · simp only [if_neg hn, Option.some.injEq] at h
    subst h
    rfl

lemma backfill_day_currency_some {league_id : ℤ} {currency_name : String}
    {pay_by_day receive_by_day : List (ℕ × GraphEntry)} {existing_dates : List ℤ}
    {max_days_back : ℕ} {today : ℤ} {days_ago : ℕ} {r : CurrencyRecord}
    (h : backfill_day_currency league_id currency_name pay_by_day receive_by_day
        existing_dates max_days_back today days_ago = some r) :
    r.timestamp.day = today - (days_ago : ℤ) ∧ days_ago ≤ max_days_back ∧
      today - (days_ago : ℤ) ∉ existing_dates := by
  unfold backfill_day_currency at h
  by_cases hd : max_days_back < days_ago
  · simp [hd] at h
  · rw [if_neg hd] at h
    by_cases he : today - (days_ago : ℤ) ∈ existing_dates
    · simp [he] at h
    · rw [if_neg he] at h
      exact ⟨by rw [process_currency_some_timestamp h], Nat.le_of_not_lt hd, he⟩

lemma backfill_day_card_some {league_id : ℤ} {card_name : String} {existing_dates : List ℤ}
    {max_days_back : ℕ} {today : ℤ} {entry : GraphEntry} {r : CardRecord}
    (h : backfill_day_card league_id card_name existing_dates max_days_back today entry
        = some r) :
    ∃ days_ago : ℕ, entry.daysAgo = some days_ago ∧
      r.timestamp.day = today - (days_ago : ℤ) ∧ days_ago ≤ max_days_back ∧
      today - (days_ago : ℤ) ∉ existing_dates := by
  unfold backfill_day_card at h
  split at h
  · exact absurd h (by simp)
  · rename_i days_ago hda
    by_cases hd : max_days_back < days_ago
    · simp [hd] at h
    · rw [if_neg hd] at h
      by_cases he : today - (days_ago : ℤ) ∈ existing_dates
      · simp [he] at h
      · rw [if_neg he] at h
        refine ⟨days_ago, hda, ?_, Nat.le_of_not_lt hd, he⟩
        simp only [process_card_entry, Option.some.injEq] at h
        rw [← h]

lemma backfill_day_item_some {league_id : ℤ} {item_name : String} {existing_dates : List ℤ}
    {max_days_back : ℕ} {today : ℤ} {entry : GraphEntry} {r : ItemRecord}
    (h : backfill_day_item league_id item_name existing_dates max_days_back today entry
        = some r) :
    ∃ days_ago : ℕ, entry.daysAgo = some days_ago ∧
      r.timestamp.day = today - (days_ago : ℤ) ∧ days_ago ≤ max_days_back ∧
      today - (days_ago : ℤ) ∉ existing_dates := by
  unfold backfill_day_item at h
  split at h
  · exact absurd h (by simp)
  · rename_i days_ago hda
    by_cases hd : max_days_back < days_ago
    · simp [hd] at h
    · rw [if_neg hd] at h
      by_cases he : today - (days_ago : ℤ) ∈ existing_dates
      · simp [he] at h
      · rw [if_neg he] at h
        refine ⟨days_ago, hda, ?_, Nat.le_of_not_lt hd, he⟩
        simp only [process_item_entry, Option.some.injEq] at h
        rw [← h]

lemma date_window {days_ago max_days_back : ℕ} {today : ℤ} (h : days_ago ≤ max_days_back) :
    today - (max_days_back : ℤ) ≤ today - (days_ago : ℤ) ∧ today - (days_ago : ℤ) ≤ today :=
  ⟨by omega, by omega⟩

/-- Claim C2: every record the backfill inserts (currency, card, or item) has
a calendar date that is not already present in storage for that
`(league, entity)` pair and that lies within
`[today - max_days_back, today]`: stored dates are skipped and entries with
`daysAgo` beyond `max_days_back` are skipped. -/
theorem claim_C2 :
    (∀ (league_id : ℤ) (currency_name : String) (pay_graph receive_graph : List GraphEntry)
        (existing_dates : List ℤ) (max_days_back : ℕ) (today : ℤ) (r : CurrencyRecord),
      r ∈ backfill_single_currency league_id currency_name pay_graph receive_graph
          existing_dates max_days_back today →
      r.timestamp.day ∉ existing_dates ∧
        today - (max_days_back : ℤ) ≤ r.timestamp.day ∧ r.timestamp.day ≤ today) ∧
    (∀ (league_id : ℤ) (card_name : String) (existing_dates : List ℤ)
        (historical_data : Option (List GraphEntry)) (max_days_back : ℕ) (today : ℤ)
        (r : CardRecord),
      r ∈ backfill_single_card league_id card_name existing_dates historical_data
          max_days_back today →
      r.timestamp.day ∉ existing_dates ∧
        today - (max_days_back : ℤ) ≤ r.timestamp.day ∧ r.timestamp.day ≤ today) ∧
    (∀ (league_id : ℤ) (item_name : String) (existing_dates : List ℤ)
        (historical_data : Option (List GraphEntry)) (max_days_back : ℕ) (today : ℤ)
        (r : ItemRecord),
      r ∈ backfill_single_item league_id item_name existing_dates historical_data
          max_days_back today →
      r.timestamp.day ∉ existing_dates ∧
        today - (max_days_back : ℤ) ≤ r.timestamp.day ∧ r.timestamp.day ≤ today) := by
  refine ⟨?_, ?_, ?_⟩
  · intro league_id currency_name pay_graph receive_graph existing_dates max_days_back
      today r hr
    obtain ⟨d, -, hsome⟩ := List.mem_filterMap.1 hr
    obtain ⟨hday, hle, hnotin⟩ := backfill_day_currency_some hsome
    rw [hday]
    exact ⟨hnotin, (date_window hle).1, (date_window hle).2⟩
  · intro league_id card_name existing_dates historical_data max_days_back today r hr
    match historical_data with
    | none => exact absurd hr (by simp [backfill_single_card])
    | some entries =>
      obtain ⟨e, -, hsome⟩ := List.mem_filterMap.1 hr
      obtain ⟨d, -, hday, hle, hnotin⟩ := backfill_day_card_some hsome
      rw [hday]
      exact ⟨hnotin, (date_window hle).1, (date_window hle).2⟩
  · intro league_id item_name existing_dates historical_data max_days_back today r hr
    match historical_data with
    | none => exact absurd hr (by simp [backfill_single_item])
    | some entries =>
      obtain ⟨e, -, hsome⟩ := List.mem_filterMap.1 hr
      obtain ⟨d, -, hday, hle, hnotin⟩ := backfill_day_item_some hsome
      rw [hday]
      exact ⟨hnotin, (date_window hle).1, (date_window hle).2⟩

/-- Witness for `claim_C2`: concrete runs of all three category backfills,
each inserting one record whose date respects the gap-detector bounds. -/
theorem claim_C2_witness :
    ((⟨⟨98, 0⟩, 7, "Exalted Orb", none, 1 / 2, some (1 / 2), none, some 1⟩ :
        CurrencyRecord).timestamp.day ∉ ([] : List ℤ) ∧
      (100 : ℤ) - ((30 : ℕ) : ℤ) ≤
        (⟨⟨98, 0⟩, 7, "Exalted Orb", none, 1 / 2, some (1 / 2), none, some 1⟩ :
          CurrencyRecord).timestamp.day ∧
      (⟨⟨98, 0⟩, 7, "Exalted Orb", none, 1 / 2, some (1 / 2), none, some 1⟩ :
        CurrencyRecord).timestamp.day ≤ 100) ∧
    ((⟨⟨47, 0⟩, 7, "The Doctor", none, 7, 2, none⟩ : CardRecord).timestamp.day ∉
        ([] : List ℤ) ∧
      (50 : ℤ) - ((10 : ℕ) : ℤ) ≤
        (⟨⟨47, 0⟩, 7, "The Doctor", none, 7, 2, none⟩ : CardRecord).timestamp.day ∧
      (⟨⟨47, 0⟩, 7, "The Doctor", none, 7, 2, none⟩ : CardRecord).timestamp.day ≤ 50) ∧
    ((⟨⟨47, 0⟩, 7, "Starforge", none, none, none, 11, none, none⟩ :
        ItemRecord).timestamp.day ∉ ([] : List ℤ) ∧
      (50 : ℤ) - ((10 : ℕ) : ℤ) ≤
        (⟨⟨47, 0⟩, 7, "Starforge", none, none, none, 11, none, none⟩ :
          ItemRecord).timestamp.day ∧
      (⟨⟨47, 0⟩, 7, "Starforge", none, none, none, 11, none, none⟩ :
        ItemRecord).timestamp.day ≤ 50) :=
  ⟨claim_C2.1 7 "Exalted Orb" [⟨some 2, 2, 1⟩] [] [] 30 100 _
      (by
        norm_num [backfill_single_currency, graph_by_day, dict_insert, all_days, sort_days,
          insert_sorted, backfill_day_currency, process_currency_entry_both, entry_value,
          entry_count, round_to_6, round_half_even, List.lookup]
        simp),
    claim_C2.2.1 7 "The Doctor" [] (some [⟨some 3, 7, 2⟩]) 10 50 _
      (by norm_num [backfill_single_card, backfill_day_card, process_card_entry]),
    claim_C2.2.2 7 "Starforge" [] (some [⟨some 3, 11, 4⟩]) 10 50 _
      (by norm_num [backfill_single_item, backfill_day_item, process_item_entry])⟩

lemma backfill_day_currency_def (league_id : ℤ) (currency_name : String)
    (pay_by_day receive_by_day : List (ℕ × GraphEntry)) (existing_dates : List ℤ)
    (max_days_back : ℕ) (today : ℤ) (days_ago : ℕ) :
    backfill_day_currency league_id currency_name pay_by_day receive_by_day existing_dates
        max_days_back today days_ago =
      if max_days_back < days_ago then none
      else if today - (days_ago : ℤ) ∈ existing_dates then none
      else
        process_currency_entry_both league_id (pay_by_day.lookup days_ago)
          (receive_by_day.lookup days_ago) currency_name (today - (days_ago : ℤ)) := rfl

lemma backfill_day_card_def_none {entry : GraphEntry} (league_id : ℤ) (card_name : String)
    (existing_dates : List ℤ) (max_days_back : ℕ) (today : ℤ) (h : entry.daysAgo = none) :
    backfill_day_card league_id card_name existing_dates max_days_back today entry = none := by
  unfold backfill_day_card
  rw [h]

lemma backfill_day_card_def_some {entry : GraphEntry} {days_ago : ℕ} (league_id : ℤ)
    (card_name : String) (existing_dates : List ℤ) (max_days_back : ℕ) (today : ℤ)
    (h : entry.daysAgo = some days_ago) :
    backfill_day_card league_id card_name existing_dates max_days_back today entry =
      if max_days_back < days_ago then none
      else if today - (days_ago : ℤ) ∈ existing_dates then none
      else process_card_entry league_id entry card_name (today - (days_ago : ℤ)) := by
  unfold backfill_day_card
  rw [h]

lemma backfill_day_item_def_none {entry : GraphEntry} (league_id : ℤ) (item_name : String)
    (existing_dates : List ℤ) (max_days_back : ℕ) (today : ℤ) (h : entry.daysAgo = none) :
    backfill_day_item league_id item_name existing_dates max_days_back today entry = none := by
  unfold backfill_day_item
  rw [h]

lemma backfill_day_item_def_some {entry : GraphEntry} {days_ago : ℕ} (league_id : ℤ)
    (item_name : String) (existing_dates : List ℤ) (max_days_back : ℕ) (today : ℤ)
    (h : entry.daysAgo = some days_ago) :
    backfill_day_item league_id item_name existing_dates max_days_back today entry =
      if max_days_back < days_ago then none
      else if today - (days_ago : ℤ) ∈ existing_dates then none
      else process_item_entry league_id entry item_name (today - (days_ago : ℤ)) := by
  unfold backfill_day_item
  rw [h]

lemma filterMap_day_currency_idem (league_id : ℤ) (currency_name : String)
    (pay_by_day receive_by_day : List (ℕ × GraphEntry)) (existing_dates : List ℤ)
    (max_days_back : ℕ) (today : ℤ) (days : List ℕ) :
    days.filterMap
      (backfill_day_currency league_id currency_name pay_by_day receive_by_day
        (existing_dates ++
          (days.filterMap
            (backfill_day_currency league_id currency_name pay_by_day receive_by_day
              existing_dates max_days_back today)).map (fun r => date_of r.timestamp))
        max_days_back today) = [] := by
  apply List.filterMap_eq_nil_iff.mpr
  intro d hd
  rw [backfill_day_currency_def]
  by_cases h1 : max_days_back < d
  · rw [if_pos h1]
  · rw [if_neg h1]
    by_cases h2 : today - (d : ℤ) ∈
        existing_dates ++
          (days.filterMap
            (backfill_day_currency league_id currency_name pay_by_day receive_by_day
              existing_dates max_days_back today)).map (fun r => date_of r.timestamp)
    · rw [if_pos h2]
    · rw [if_neg h2]
      have h2a : today - (d : ℤ) ∉ existing_dates := fun hmem => h2 (List.mem_append_left _ hmem)
      cases hp : process_currency_entry_both league_id (pay_by_day.lookup d)
          (receive_by_day.lookup d) currency_name (today - (d : ℤ)) with
      | none => rfl
      | some r =>
        exfalso
        have hr1 : backfill_day_currency league_id currency_name pay_by_day receive_by_day
            existing_dates max_days_back today d = some r := by
          rw [backfill_day_currency_def, if_neg h1, if_neg h2a]
          exact hp
        have hmem : r ∈ days.filterMap
            (backfill_day_currency league_id currency_name pay_by_day receive_by_day
              existing_dates max_days_back today) :=
          List.mem_filterMap.2 ⟨d, hd, hr1⟩
        have hday : r.timestamp.day = today - (d : ℤ) := (backfill_day_currency_some hr1).1
        exact h2 (List.mem_append_right _
          (List.mem_map.2 ⟨r, hmem, by rw [date_of, hday]⟩))

lemma filterMap_day_card_idem (league_id : ℤ) (card_name : String) (existing_dates : List ℤ)
    (max_days_back : ℕ) (today : ℤ) (entries : List GraphEntry) :
    entries.filterMap
      (backfill_day_card league_id card_name
        (existing_dates ++
          (entries.filterMap
            (backfill_day_card league_id card_name existing_dates max_days_back
              today)).map (fun r => date_of r.timestamp))
        max_days_back today) = [] := by
  apply List.filterMap_eq_nil_iff.mpr
  intro e he
  cases hda : e.daysAgo with
  | none => exact backfill_day_card_def_none league_id card_name _ max_days_back today hda
  | some d =>
    rw [backfill_day_card_def_some league_id card_name _ max_days_back today hda]
    by_cases h1 : max_days_back < d
    · rw [if_pos h1]
    · rw [if_neg h1]
      by_cases h2 : today - (d : ℤ) ∈
          existing_dates ++
            (entries.filterMap
              (backfill_day_card league_id card_name existing_dates max_days_back
                today)).map (fun r => date_of r.timestamp)
      · rw [if_pos h2]
      · exfalso
        have h2a : today - (d : ℤ) ∉ existing_dates := fun hmem =>
          h2 (List.mem_append_left _ hmem)
        have hr1 : backfill_day_card league_id card_name existing_dates max_days_back today e
            = some ⟨⟨today - (d : ℤ), 0⟩, league_id, card_name, none, e.value, e.count, none⟩ := by
          rw [backfill_day_card_def_some league_id card_name existing_dates max_days_back
            today hda, if_neg h1, if_neg h2a]
          rfl
        have hmem : (⟨⟨today - (d : ℤ), 0⟩, league_id, card_name, none, e.value, e.count, none⟩ :
            CardRecord) ∈ entries.filterMap
              (backfill_day_card league_id card_name existing_dates max_days_back today) :=
          List.mem_filterMap.2 ⟨e, he, hr1⟩
        exact h2 (List.mem_append_right _ (List.mem_map.2 ⟨_, hmem, rfl⟩))

lemma filterMap_day_item_idem (league_id : ℤ) (item_name : String) (existing_dates : List ℤ)
    (max_days_back : ℕ) (today : ℤ) (entries : List GraphEntry) :
    entries.filterMap
      (backfill_day_item league_id item_name
        (existing_dates ++
          (entries.filterMap
            (backfill_day_item league_id item_name existing_dates max_days_back
              today)).map (fun r => date_of r.timestamp))
        max_days_back today) = [] := by
  apply List.filterMap_eq_nil_iff.mpr
  intro e he
  cases hda : e.daysAgo with
  | none => exact backfill_day_item_def_none league_id item_name _ max_days_back today hda
  | some d =>
    rw [backfill_day_item_def_some league_id item_name _ max_days_back today hda]
    by_cases h1 : max_days_back < d
    · rw [if_pos h1]
    · rw [if_neg h1]
      by_cases h2 : today - (d : ℤ) ∈
          existing_dates ++
            (entries.filterMap
              (backfill_day_item league_id item_name existing_dates max_days_back
                today)).map (fun r => date_of r.timestamp)
      · rw [if_pos h2]
      · exfalso
        have h2a : today - (d : ℤ) ∉ existing_dates := fun hmem =>
          h2 (List.mem_append_left _ hmem)
        have hr1 : backfill_day_item league_id item_name existing_dates max_days_back today e
            = some ⟨⟨today - (d : ℤ), 0⟩, league_id, item_name, none, none, none, e.value,
                none, none⟩ := by
          rw [backfill_day_item_def_some league_id item_name existing_dates max_days_back
            today hda, if_neg h1, if_neg h2a]
          rfl
        have hmem : (⟨⟨today - (d : ℤ), 0⟩, league_id, item_name, none, none, none, e.value,
            none, none⟩ : ItemRecord) ∈ entries.filterMap
              (backfill_day_item league_id item_name existing_dates max_days_back today) :=
          List.mem_filterMap.2 ⟨e, he, hr1⟩
        exact h2 (List.mem_append_right _ (List.mem_map.2 ⟨_, hmem, rfl⟩))

/-- Claim C7: running a backfill pass and immediately running it again (same
upstream data, storage now containing the dates of the records the first pass
inserted) inserts zero records the second time, for each of the three
categories; every record of the first pass carries a midnight timestamp, so
`DATE(timestamp)` recovers its calendar date in the stored-dates set. -/
theorem claim_C7 :
    (∀ (league_id : ℤ) (currency_name : String) (pay_graph receive_graph : List GraphEntry)
        (existing_dates : List ℤ) (max_days_back : ℕ) (today : ℤ),
      backfill_single_currency league_id currency_name pay_graph receive_graph
        (existing_dates ++
          (backfill_single_currency league_id currency_name pay_graph receive_graph
            existing_dates max_days_back today).map (fun r => date_of r.timestamp))
        max_days_back today = [] ∧
      ∀ r, r ∈ backfill_single_currency league_id currency_name pay_graph receive_graph
          existing_dates max_days_back today → r.timestamp.tod = 0) ∧
    (∀ (league_id : ℤ) (card_name : String) (existing_dates : List ℤ)
        (historical_data : Option (List GraphEntry)) (max_days_back : ℕ) (today : ℤ),
      backfill_single_card league_id card_name
        (existing_dates ++
          (backfill_single_card league_id card_name existing_dates historical_data
            max_days_back today).map (fun r => date_of r.timestamp))
        historical_data max_days_back today = [] ∧
      ∀ r, r ∈ backfill_single_card league_id card_name existing_dates historical_data
          max_days_back today → r.timestamp.tod = 0) ∧
    (∀ (league_id : ℤ) (item_name : String) (existing_dates : List ℤ)
        (historical_data : Option (List GraphEntry)) (max_days_back : ℕ) (today : ℤ),
      backfill_single_item league_id item_name
        (existing_dates ++
          (backfill_single_item league_id item_name existing_dates historical_data
            max_days_back today).map (fun r => date_of r.timestamp))
        historical_data max_days_back today = [] ∧
      ∀ r, r ∈ backfill_single_item league_id item_name existing_dates historical_data
          max_days_back today → r.timestamp.tod = 0) := by
  refine ⟨?_, ?_, ?_⟩
  · intro league_id currency_name pay_graph receive_graph existing_dates max_days_back today
    constructor
    · exact filterMap_day_currency_idem league_id currency_name (graph_by_day pay_graph)
        (graph_by_day receive_graph) existing_dates max_days_back today
        (sort_days (all_days (graph_by_day receive_graph) (graph_by_day pay_graph)))
    · intro r hr
      obtain ⟨d, -, hsome⟩ := List.mem_filterMap.1 hr
      unfold backfill_day_currency at hsome
      by_cases h1 : max_days_back < d
      · simp [h1] at hsome
      · rw [if_neg h1] at hsome
        by_cases h2 : today - (d : ℤ) ∈ existing_dates
        · simp [h2] at hsome
        · rw [if_neg h2] at hsome
          rw [process_currency_some_timestamp hsome]
  · intro league_id card_name existing_dates historical_data max_days_back today
    match historical_data with
    | none => exact ⟨rfl, fun r hr => absurd hr (by simp [backfill_single_card])⟩
    | some entries =>
      constructor
      · exact filterMap_day_card_idem league_id card_name existing_dates max_days_back today
          entries
      · intro r hr
        obtain ⟨e, -, hsome⟩ := List.mem_filterMap.1 hr
        obtain ⟨d, hda, -, -, -⟩ := backfill_day_card_some hsome
        unfold backfill_day_card at hsome
        rw [hda] at hsome
        dsimp only at hsome
        by_cases h1 : max_days_back < d
        · simp [h1] at hsome
        · rw [if_neg h1] at hsome
          by_cases h2 : today - (d : ℤ) ∈ existing_dates
          · simp [h2] at hsome
          · rw [if_neg h2] at hsome
            simp only [process_card_entry, Option.some.injEq] at hsome
            rw [← hsome]
  · intro league_id item_name existing_dates historical_data max_days_back today
    match historical_data with
    | none => exact ⟨rfl, fun r hr => absurd hr (by simp [backfill_single_item])⟩
    | some entries =>
      constructor
      · exact filterMap_day_item_idem league_id item_name existing_dates max_days_back today
          entries
      · intro r hr
        obtain ⟨e, -, hsome⟩ := List.mem_filterMap.1 hr
        obtain ⟨d, hda, -, -, -⟩ := backfill_day_item_some hsome
        unfold backfill_day_item at hsome
        rw [hda] at hsome
        dsimp only at hsome
        by_cases h1 : max_days_back < d
        · simp [h1] at hsome
        · rw [if_neg h1] at hsome
          by_cases h2 : today - (d : ℤ) ∈ existing_dates
          · simp [h2] at hsome
          · rw [if_neg h2] at hsome
            simp only [process_item_entry, Option.some.injEq] at hsome
            rw [← hsome]


/-- Witness for `claim_C7`: a concrete currency run whose second pass inserts
nothing, and concrete records of all three categories carrying midnight
timestamps. -/
theorem claim_C7_witness :
    backfill_single_currency 7 "Exalted Orb" [⟨some 2, 2, 1⟩] []
        ([] ++ (backfill_single_currency 7 "Exalted Orb" [⟨some 2, 2, 1⟩] [] [] 30 100).map
          (fun r => date_of r.timestamp)) 30 100 = [] ∧
    (⟨⟨98, 0⟩, 7, "Exalted Orb", none, 1 / 2, some (1 / 2), none, some 1⟩ :
        CurrencyRecord).timestamp.tod = 0 ∧
    (⟨⟨47, 0⟩, 7, "The Doctor", none, 7, 2, none⟩ : CardRecord).timestamp.tod = 0 ∧
    (⟨⟨47, 0⟩, 7, "Starforge", none, none, none, 11, none, none⟩ :
        ItemRecord).timestamp.tod = 0 :=
  ⟨(claim_C7.1 7 "Exalted Orb" [⟨some 2, 2, 1⟩] [] [] 30 100).1,
    (claim_C7.1 7 "Exalted Orb" [⟨some 2, 2, 1⟩] [] [] 30 100).2 _
      (by
        norm_num [backfill_single_currency, graph_by_day, dict_insert, all_days, sort_days,
          insert_sorted, backfill_day_currency, process_currency_entry_both, entry_value,
          entry_count, round_to_6, round_half_even, List.lookup]
        simp),
    (claim_C7.2.1 7 "The Doctor" [] (some [⟨some 3, 7, 2⟩]) 10 50).2 _
      (by norm_num [backfill_single_card, backfill_day_card, process_card_entry]),
    (claim_C7.2.2 7 "Starforge" [] (some [⟨some 3, 11, 4⟩]) 10 50).2 _
      (by norm_num [backfill_single_item, backfill_day_item, process_item_entry])⟩


/-! ## Claims about the resilient transport -/

lemma get_loop_succ_success {cfg : HTTPClient} {key : String} {outcomes : ℕ → NetOutcome}
    {jitter : ℕ → ℚ} {now : ℚ} {st : CBState} {attempt remaining s : ℕ}
    (h : classify_attempt (outcomes attempt) = AttemptClass.success s) :
    get_loop cfg key outcomes jitter now st attempt (remaining + 1) =
      { result := some s, state := record_success cfg st key, attempts := 1, sleeps := [] } := by
  unfold get_loop loop_step
  rw [h]

lemma get_loop_succ_hardFail {cfg : HTTPClient} {key : String} {outcomes : ℕ → NetOutcome}
    {jitter : ℕ → ℚ} {now : ℚ} {st : CBState} {attempt remaining s : ℕ}
    (h : classify_attempt (outcomes attempt) = AttemptClass.hardFail s) :
    get_loop cfg key outcomes jitter now st attempt (remaining + 1) =
      { result := none, state := record_failure cfg st key now, attempts := 1,
        sleeps := [] } := by
  unfold get_loop loop_step
  rw [h]

lemma get_loop_succ_softFail_last {cfg : HTTPClient} {key : String}
    {outcomes : ℕ → NetOutcome} {jitter : ℕ → ℚ} {now : ℚ} {st : CBState} {attempt : ℕ}
    (h : classify_attempt (outcomes attempt) = AttemptClass.softFail) :
    get_loop cfg key outcomes jitter now st attempt 1 =
      { result := none, state := record_failure cfg st key now, attempts := 1,
        sleeps := [] } := by
  conv_lhs => rw [get_loop]
  rw [h]
  simp [loop_step]

lemma get_loop_succ_softFail_cont {cfg : HTTPClient} {key : String}
    {outcomes : ℕ → NetOutcome} {jitter : ℕ → ℚ} {now : ℚ} {st : CBState} {attempt r : ℕ}
    (h : classify_attempt (outcomes attempt) = AttemptClass.softFail) :
    get_loop cfg key outcomes jitter now st attempt (r + 2) =
      { result := (get_loop cfg key outcomes jitter now st (attempt + 1) (r + 1)).result,
        state := (get_loop cfg key outcomes jitter now st (attempt + 1) (r + 1)).state,
        attempts := (get_loop cfg key outcomes jitter now st (attempt + 1) (r + 1)).attempts + 1,
        sleeps := (cfg.backoff_factor * 2 ^ attempt + jitter attempt) ::
          (get_loop cfg key outcomes jitter now st (attempt + 1) (r + 1)).sleeps } := by
  conv_lhs => rw [get_loop]
  rw [h]
  simp [loop_step]

lemma get_of_closed (cfg : HTTPClient) (st : CBState) (url : Url)
    (outcomes : ℕ → NetOutcome) (jitter : ℕ → ℚ) (now : ℚ)
    (h : st.circuit_open_until (circuit_key url) = none) :
    HTTPClient.get cfg st url outcomes jitter now =
      get_loop cfg (circuit_key url) outcomes jitter now st 0 (cfg.max_retries + 1) := by
  unfold HTTPClient.get check_circuit_breaker
  by_cases he : cfg.enable_circuit_breaker = false
  · rw [if_pos he]
  · rw [if_neg he, h]

lemma get_loop_result_none_state (cfg : HTTPClient) (key : String)
    (outcomes : ℕ → NetOutcome) (jitter : ℕ → ℚ) (now : ℚ) (st : CBState) :
    ∀ remaining attempt,
      (get_loop cfg key outcomes jitter now st attempt remaining).result = none →
      (get_loop cfg key outcomes jitter now st attempt remaining).state
        = record_failure cfg st key now := by
  intro remaining
  induction remaining with
  | zero => intro attempt _; rfl
  | succ r ih =>
    intro attempt hres
    cases hc : classify_attempt (outcomes attempt) with
    | success s => rw [get_loop_succ_success hc] at hres; exact absurd hres (by simp)
    | hardFail s => rw [get_loop_succ_hardFail hc]
    | softFail =>
      cases r with
      | zero => rw [get_loop_succ_softFail_last hc]
      | succ r2 =>
        rw [get_loop_succ_softFail_cont hc] at hres ⊢
        exact ih (attempt + 1) hres

lemma get_loop_attempts_pos (cfg : HTTPClient) (key : String)
    (outcomes : ℕ → NetOutcome) (jitter : ℕ → ℚ) (now : ℚ) (st : CBState)
    (attempt remaining : ℕ) :
    1 ≤ (get_loop cfg key outcomes jitter now st attempt (remaining + 1)).attempts := by
  cases hc : classify_attempt (outcomes attempt) with
  | success s => rw [get_loop_succ_success hc]
  | hardFail s => rw [get_loop_succ_hardFail hc]
  | softFail =>
    cases remaining with
    | zero => rw [get_loop_succ_softFail_last hc]
    | succ r2 =>
      rw [get_loop_succ_softFail_cont hc]
      exact Nat.succ_le_succ (Nat.zero_le _)

lemma get_loop_trace (cfg : HTTPClient) (key : String) (outcomes : ℕ → NetOutcome)
    (jitter : ℕ → ℚ) (now : ℚ) (st : CBState) :
    ∀ r attempt,
      (get_loop cfg key outcomes jitter now st attempt (r + 1)).attempts
        = (get_loop cfg key outcomes jitter now st attempt (r + 1)).sleeps.length + 1 ∧
      (get_loop cfg key outcomes jitter now st attempt (r + 1)).attempts ≤ r + 1 ∧
      ∀ i (h : i < (get_loop cfg key outcomes jitter now st attempt (r + 1)).sleeps.length),
        (get_loop cfg key outcomes jitter now st attempt (r + 1)).sleeps.get ⟨i, h⟩
          = cfg.backoff_factor * 2 ^ (attempt + i) + jitter (attempt + i) := by
  intro r
  induction r with
  | zero =>
    intro attempt
    cases hc : classify_attempt (outcomes attempt) with
    | success s =>
      rw [get_loop_succ_success hc]
      exact ⟨rfl, le_refl _, fun i h => absurd h (by simp)⟩
    | hardFail s =>
      rw [get_loop_succ_hardFail hc]
      exact ⟨rfl, le_refl _, fun i h => absurd h (by simp)⟩
    | softFail =>
      rw [get_loop_succ_softFail_last hc]
      exact ⟨rfl, le_refl _, fun i h => absurd h (by simp)⟩
  | succ r2 ih =>
    intro attempt
    cases hc : classify_attempt (outcomes attempt) with
    | success s =>
      rw [get_loop_succ_success hc]
      exact ⟨rfl, Nat.succ_le_succ (Nat.zero_le _), fun i h => absurd h (by simp)⟩
    | hardFail s =>
      rw [get_loop_succ_hardFail hc]
      exact ⟨rfl, Nat.succ_le_succ (Nat.zero_le _), fun i h => absurd h (by simp)⟩
    | softFail =>
      rw [get_loop_succ_softFail_cont hc]
      obtain ⟨ih1, ih2, ih3⟩ := ih (attempt + 1)
      refine ⟨by simp [ih1], by simpa using Nat.succ_le_succ ih2, ?_⟩
      intro i h
      cases i with
      | zero => simp
      | succ i2 =>
        have h2 : i2 < (get_loop cfg key outcomes jitter now st (attempt + 1)
            (r2 + 1)).sleeps.length := by simpa using h
        have := ih3 i2 h2
        simpa [Nat.add_assoc, Nat.add_comm 1 i2] using this

lemma get_loop_all_soft (cfg : HTTPClient) (key : String) (outcomes : ℕ → NetOutcome)
    (jitter : ℕ → ℚ) (now : ℚ) (st : CBState) :
    ∀ r attempt,
      (∀ i, attempt ≤ i → i ≤ attempt + r →
        classify_attempt (outcomes i) = AttemptClass.softFail) →
      (get_loop cfg key outcomes jitter now st attempt (r + 1)).result = none ∧
      (get_loop cfg key outcomes jitter now st attempt (r + 1)).attempts = r + 1 := by
  intro r
  induction r with
  | zero =>
    intro attempt h
    rw [get_loop_succ_softFail_last (h attempt le_rfl (by omega))]
    exact ⟨rfl, rfl⟩
  | succ r2 ih =>
    intro attempt h
    rw [get_loop_succ_softFail_cont (h attempt le_rfl (by omega))]
    obtain ⟨ih1, ih2⟩ := ih (attempt + 1) (fun i hi1 hi2 => h i (by omega) (by omega))
    exact ⟨ih1, by simp [ih2]⟩


/-- Claim C3: once the per-key failure counter reaches
`circuit_breaker_threshold` via consecutive terminal failures, the circuit
opens with `open_until = now + circuit_breaker_timeout`, and every get to a
URL with that key issued while `now < open_until` returns failure
immediately with zero network attempts and an untouched state.  Part one:
a terminally failing get from a closed circuit increments the key's counter
by exactly one and, when that reaches the threshold, opens the circuit.
Part two: the short-circuit. -/
theorem claim_C3 (cfg : HTTPClient) (url : Url)
    (hE : cfg.enable_circuit_breaker = true) :
    (∀ (st : CBState) (outcomes : ℕ → NetOutcome) (jitter : ℕ → ℚ) (now : ℚ),
      st.circuit_open_until (circuit_key url) = none →
      (HTTPClient.get cfg st url outcomes jitter now).result = none →
      (HTTPClient.get cfg st url outcomes jitter now).state.failure_counts (circuit_key url)
          = st.failure_counts (circuit_key url) + 1 ∧
        (cfg.circuit_breaker_threshold ≤ st.failure_counts (circuit_key url) + 1 →
          (HTTPClient.get cfg st url outcomes jitter now).state.circuit_open_until
            (circuit_key url) = some (now + cfg.circuit_breaker_timeout))) ∧
    (∀ (st : CBState) (u : ℚ) (outcomes : ℕ → NetOutcome) (jitter : ℕ → ℚ) (now : ℚ),
      st.circuit_open_until (circuit_key url) = some u → now < u →
      HTTPClient.get cfg st url outcomes jitter now =
        { result := none, state := st, attempts := 0, sleeps := [] }) := by
  constructor
  · intro st outcomes jitter now hopen hres
    rw [get_of_closed cfg st url outcomes jitter now hopen] at hres ⊢
    rw [get_loop_result_none_state cfg (circuit_key url) outcomes jitter now st
      (cfg.max_retries + 1) 0 hres]
    constructor
    · simp [record_failure, hE]
    · intro hth
      simp [record_failure, hE, hth]
  · intro st u outcomes jitter now hopen hlt
    unfold HTTPClient.get check_circuit_breaker
    simp [hE, hopen, hlt]

/-- Claim C4: a get to a key whose circuit is OPEN, issued at `now ≥
open_until`, behaves exactly like a get from the state in which that key's
failure counter is zero and its circuit entry deleted (so the attempt loop
actually runs — at least one network attempt) — the reset happens
unconditionally at the transition, before and therefore regardless of the
outcome of the attempt (no half-open trial). -/
theorem claim_C4 (cfg : HTTPClient) (st : CBState) (url : Url) (u : ℚ)
    (outcomes : ℕ → NetOutcome) (jitter : ℕ → ℚ) (now : ℚ)
    (hE : cfg.enable_circuit_breaker = true)
    (hopen : st.circuit_open_until (circuit_key url) = some u) (helapsed : u ≤ now) :
    HTTPClient.get cfg st url outcomes jitter now =
      HTTPClient.get cfg (cb_reset st (circuit_key url)) url outcomes jitter now ∧
    1 ≤ (HTTPClient.get cfg st url outcomes jitter now).attempts ∧
    (cb_reset st (circuit_key url)).failure_counts (circuit_key url) = 0 := by
  have hnlt : ¬ now < u := not_lt.mpr helapsed
  have h1 : HTTPClient.get cfg st url outcomes jitter now =
      get_loop cfg (circuit_key url) outcomes jitter now (cb_reset st (circuit_key url)) 0
        (cfg.max_retries + 1) := by
    unfold HTTPClient.get check_circuit_breaker
    simp [hE, hopen, hnlt]
  have h2 : HTTPClient.get cfg (cb_reset st (circuit_key url)) url outcomes jitter now =
      get_loop cfg (circuit_key url) outcomes jitter now (cb_reset st (circuit_key url)) 0
        (cfg.max_retries + 1) :=
    get_of_closed cfg _ url outcomes jitter now (by simp [cb_reset])
  refine ⟨h1.trans h2.symm, ?_, by simp [cb_reset]⟩
  rw [h1]
  exact get_loop_attempts_pos cfg (circuit_key url) outcomes jitter now _ 0 cfg.max_retries

/-- Claim C5: for a get whose circuit is closed, the retry loop sleeps
exactly once before each retried attempt (never after the final attempt, so
`sleeps.length + 1 = attempts ≤ max_retries + 1`); the delay before the
n-th retried attempt (0-based index `i = n - 1`) equals
`backoff_factor * 2 ^ i + uniform(0, 1)`, hence lies in
`[backoff_factor * 2 ^ i, backoff_factor * 2 ^ i + 1)`, and its
deterministic component is non-decreasing in the attempt index. -/
theorem claim_C5 (cfg : HTTPClient) (st : CBState) (url : Url)
    (outcomes : ℕ → NetOutcome) (jitter : ℕ → ℚ) (now : ℚ)
    (hclosed : st.circuit_open_until (circuit_key url) = none)
    (hb : 0 ≤ cfg.backoff_factor) (hj : ∀ n, 0 ≤ jitter n ∧ jitter n < 1) :
    (HTTPClient.get cfg st url outcomes jitter now).attempts
      = (HTTPClient.get cfg st url outcomes jitter now).sleeps.length + 1 ∧
    (HTTPClient.get cfg st url outcomes jitter now).sleeps.length ≤ cfg.max_retries ∧
    (∀ i (h : i < (HTTPClient.get cfg st url outcomes jitter now).sleeps.length),
      (HTTPClient.get cfg st url outcomes jitter now).sleeps.get ⟨i, h⟩
          = cfg.backoff_factor * 2 ^ i + jitter i ∧
        cfg.backoff_factor * 2 ^ i ≤
          (HTTPClient.get cfg st url outcomes jitter now).sleeps.get ⟨i, h⟩ ∧
        (HTTPClient.get cfg st url outcomes jitter now).sleeps.get ⟨i, h⟩ <
          cfg.backoff_factor * 2 ^ i + 1) ∧
    (∀ i j, i ≤ j → cfg.backoff_factor * 2 ^ i ≤ cfg.backoff_factor * 2 ^ j) := by
  rw [get_of_closed cfg st url outcomes jitter now hclosed]
  obtain ⟨h1, h2, h3⟩ :=
    get_loop_trace cfg (circuit_key url) outcomes jitter now st cfg.max_retries 0
  refine ⟨h1, by omega, ?_, ?_⟩
  · intro i h
    have hf := h3 i h
    rw [Nat.zero_add] at hf
    have hji := hj i
    refine ⟨hf, ?_, ?_⟩
    · rw [hf]
      linarith [hji.1]
    · rw [hf]
      linarith [hji.2]
  · intro i j hij
    exact mul_le_mul_of_nonneg_left (pow_le_pow_right₀ (by norm_num) hij) hb

/-- Claim C6: a get answered by a 4xx status other than 429 returns failure
after exactly one network attempt with no sleep, and that failure still
increments the circuit-breaker counter for the key; connection errors,
timeouts and HTTP 429/5xx are all retryable, and when every attempt fails
retryably the call makes exactly `max_retries + 1` attempts (the original
plus `max_retries` retries) before a terminal failure. -/
theorem claim_C6 (cfg : HTTPClient) (url : Url)
    (hE : cfg.enable_circuit_breaker = true) :
    (∀ (st : CBState) (outcomes : ℕ → NetOutcome) (jitter : ℕ → ℚ) (now : ℚ) (s : ℕ),
      st.circuit_open_until (circuit_key url) = none →
      outcomes 0 = NetOutcome.resp s → 400 ≤ s → s < 500 → s ≠ 429 →
      HTTPClient.get cfg st url outcomes jitter now =
        { result := none, state := record_failure cfg st (circuit_key url) now,
          attempts := 1, sleeps := [] } ∧
      (record_failure cfg st (circuit_key url) now).failure_counts (circuit_key url)
        = st.failure_counts (circuit_key url) + 1) ∧
    (∀ s, 500 ≤ s → classify_attempt (NetOutcome.resp s) = AttemptClass.softFail) ∧
    classify_attempt (NetOutcome.resp 429) = AttemptClass.softFail ∧
    classify_attempt NetOutcome.timeout = AttemptClass.softFail ∧
    classify_attempt NetOutcome.connError = AttemptClass.softFail ∧
    (∀ (st : CBState) (outcomes : ℕ → NetOutcome) (jitter : ℕ → ℚ) (now : ℚ),
      st.circuit_open_until (circuit_key url) = none →
      (∀ i, i ≤ cfg.max_retries → classify_attempt (outcomes i) = AttemptClass.softFail) →
      (HTTPClient.get cfg st url outcomes jitter now).result = none ∧
      (HTTPClient.get cfg st url outcomes jitter now).attempts = cfg.max_retries + 1) := by
  refine ⟨?_, ?_, by decide, rfl, rfl, ?_⟩
  · intro st outcomes jitter now s hopen ho h400 h500 h429
    have hc : classify_attempt (outcomes 0) = AttemptClass.hardFail s := by
      rw [ho]
      unfold classify_attempt
      dsimp only
      rw [if_neg (not_lt.mpr h400), if_pos ⟨h500, h429⟩]
    constructor
    · rw [get_of_closed cfg st url outcomes jitter now hopen]
      exact get_loop_succ_hardFail hc
    · simp [record_failure, hE]
  · intro s h
    unfold classify_attempt
    dsimp only
    rw [if_neg (by omega), if_neg (by rintro ⟨h1, -⟩; omega)]
  · intro st outcomes jitter now hopen hsoft
    rw [get_of_closed cfg st url outcomes jitter now hopen]
    exact get_loop_all_soft cfg (circuit_key url) outcomes jitter now st cfg.max_retries 0
      (fun i h1 h2 => hsoft i (by omega))


/-- Witness for `claim_C3`: with `threshold = 1` and `timeout = 60`, a failing
get at time 10 opens the circuit until 70; a get at time 20 against an open
circuit short-circuits, touching neither the network nor the state. -/
theorem claim_C3_witness :
    (HTTPClient.get ⟨0, 1, true, 1, 60⟩ ⟨fun _ => 0, fun _ => none⟩ ⟨"poe.ninja", "/api"⟩
        (fun _ => NetOutcome.timeout) (fun _ => 0) 10).state.circuit_open_until
        (circuit_key ⟨"poe.ninja", "/api"⟩) = some (10 + 60) ∧
    HTTPClient.get ⟨0, 1, true, 1, 60⟩ ⟨fun _ => 1, fun _ => some 70⟩ ⟨"poe.ninja", "/api"⟩
        (fun _ => NetOutcome.timeout) (fun _ => 0) 20 =
      { result := none, state := ⟨fun _ => 1, fun _ => some 70⟩, attempts := 0,
        sleeps := [] } :=
  ⟨((claim_C3 ⟨0, 1, true, 1, 60⟩ ⟨"poe.ninja", "/api"⟩ rfl).1
      ⟨fun _ => 0, fun _ => none⟩ (fun _ => NetOutcome.timeout) (fun _ => 0) 10 rfl rfl).2
      (by simp),
    (claim_C3 ⟨0, 1, true, 1, 60⟩ ⟨"poe.ninja", "/api"⟩ rfl).2
      ⟨fun _ => 1, fun _ => some 70⟩ 70 (fun _ => NetOutcome.timeout) (fun _ => 0) 20 rfl
      (by norm_num)⟩

/-- Witness for `claim_C4`: a get at time 60 against a circuit open until 50
equals the get from the reset state, attempts the network, and the reset
zeroes the key's failure counter. -/
theorem claim_C4_witness :
    HTTPClient.get ⟨1, 1, true, 2, 30⟩ ⟨fun _ => 2, fun _ => some 50⟩ ⟨"poe.ninja", "/api"⟩
        (fun _ => NetOutcome.resp 200) (fun _ => 0) 60 =
      HTTPClient.get ⟨1, 1, true, 2, 30⟩
        (cb_reset ⟨fun _ => 2, fun _ => some 50⟩ (circuit_key ⟨"poe.ninja", "/api"⟩))
        ⟨"poe.ninja", "/api"⟩ (fun _ => NetOutcome.resp 200) (fun _ => 0) 60 ∧
    1 ≤ (HTTPClient.get ⟨1, 1, true, 2, 30⟩ ⟨fun _ => 2, fun _ => some 50⟩
        ⟨"poe.ninja", "/api"⟩ (fun _ => NetOutcome.resp 200) (fun _ => 0) 60).attempts ∧
    (cb_reset ⟨fun _ => 2, fun _ => some 50⟩
        (circuit_key ⟨"poe.ninja", "/api"⟩)).failure_counts
      (circuit_key ⟨"poe.ninja", "/api"⟩) = 0 :=
  claim_C4 ⟨1, 1, true, 2, 30⟩ ⟨fun _ => 2, fun _ => some 50⟩ ⟨"poe.ninja", "/api"⟩ 50
    (fun _ => NetOutcome.resp 200) (fun _ => 0) 60 rfl rfl (by norm_num)

/-- Witness for `claim_C5`: with `max_retries = 2`, `backoff_factor = 1` and
constant jitter `1/2`, the sleep schedule of an all-timeout get obeys the
exponential-backoff bounds. -/
theorem claim_C5_witness :
    (HTTPClient.get ⟨2, 1, true, 5, 60⟩ ⟨fun _ => 0, fun _ => none⟩ ⟨"poe.ninja", "/api"⟩
        (fun _ => NetOutcome.timeout) (fun _ => 1 / 2) 0).attempts
      = (HTTPClient.get ⟨2, 1, true, 5, 60⟩ ⟨fun _ => 0, fun _ => none⟩
          ⟨"poe.ninja", "/api"⟩ (fun _ => NetOutcome.timeout) (fun _ => 1 / 2)
          0).sleeps.length + 1 ∧
    (HTTPClient.get ⟨2, 1, true, 5, 60⟩ ⟨fun _ => 0, fun _ => none⟩ ⟨"poe.ninja", "/api"⟩
        (fun _ => NetOutcome.timeout) (fun _ => 1 / 2) 0).sleeps.length ≤ 2 ∧
    (∀ i (h : i < (HTTPClient.get ⟨2, 1, true, 5, 60⟩ ⟨fun _ => 0, fun _ => none⟩
        ⟨"poe.ninja", "/api"⟩ (fun _ => NetOutcome.timeout) (fun _ => 1 / 2)
        0).sleeps.length),
      (HTTPClient.get ⟨2, 1, true, 5, 60⟩ ⟨fun _ => 0, fun _ => none⟩ ⟨"poe.ninja", "/api"⟩
          (fun _ => NetOutcome.timeout) (fun _ => 1 / 2) 0).sleeps.get ⟨i, h⟩
          = 1 * 2 ^ i + 1 / 2 ∧
        1 * 2 ^ i ≤ (HTTPClient.get ⟨2, 1, true, 5, 60⟩ ⟨fun _ => 0, fun _ => none⟩
          ⟨"poe.ninja", "/api"⟩ (fun _ => NetOutcome.timeout) (fun _ => 1 / 2)
          0).sleeps.get ⟨i, h⟩ ∧
        (HTTPClient.get ⟨2, 1, true, 5, 60⟩ ⟨fun _ => 0, fun _ => none⟩
          ⟨"poe.ninja", "/api"⟩ (fun _ => NetOutcome.timeout) (fun _ => 1 / 2)
          0).sleeps.get ⟨i, h⟩ < 1 * 2 ^ i + 1) ∧
    (∀ i j, i ≤ j → (1 : ℚ) * 2 ^ i ≤ 1 * 2 ^ j) :=
  claim_C5 ⟨2, 1, true, 5, 60⟩ ⟨fun _ => 0, fun _ => none⟩ ⟨"poe.ninja", "/api"⟩
    (fun _ => NetOutcome.timeout) (fun _ => 1 / 2) 0 rfl (by norm_num)
    (fun n => ⟨by norm_num, by norm_num⟩)

/-- Witness for `claim_C6`: a 404 answer fails after exactly one attempt with
no sleep and bumps the failure counter; with `max_retries = 2`, an
all-timeout get makes exactly 3 attempts. -/
theorem claim_C6_witness :
    (HTTPClient.get ⟨2, 1, true, 5, 60⟩ ⟨fun _ => 0, fun _ => none⟩ ⟨"poe.ninja", "/api"⟩
        (fun _ => NetOutcome.resp 404) (fun _ => 0) 5 =
      { result := none,
        state := record_failure ⟨2, 1, true, 5, 60⟩ ⟨fun _ => 0, fun _ => none⟩
          (circuit_key ⟨"poe.ninja", "/api"⟩) 5,
        attempts := 1, sleeps := [] } ∧
      (record_failure ⟨2, 1, true, 5, 60⟩ ⟨fun _ => 0, fun _ => none⟩
          (circuit_key ⟨"poe.ninja", "/api"⟩) 5).failure_counts
          (circuit_key ⟨"poe.ninja", "/api"⟩)
        = (⟨fun _ => 0, fun _ => none⟩ : CBState).failure_counts
            (circuit_key ⟨"poe.ninja", "/api"⟩) + 1) ∧
    ((HTTPClient.get ⟨2, 1, true, 5, 60⟩ ⟨fun _ => 0, fun _ => none⟩ ⟨"poe.ninja", "/api"⟩
        (fun _ => NetOutcome.timeout) (fun _ => 0) 5).result = none ∧
      (HTTPClient.get ⟨2, 1, true, 5, 60⟩ ⟨fun _ => 0, fun _ => none⟩ ⟨"poe.ninja", "/api"⟩
        (fun _ => NetOutcome.timeout) (fun _ => 0) 5).attempts = 2 + 1) :=
  ⟨(claim_C6 ⟨2, 1, true, 5, 60⟩ ⟨"poe.ninja", "/api"⟩ rfl).1
      ⟨fun _ => 0, fun _ => none⟩ (fun _ => NetOutcome.resp 404) (fun _ => 0) 5 404 rfl rfl
      (by norm_num) (by norm_num) (by norm_num),
    (claim_C6 ⟨2, 1, true, 5, 60⟩ ⟨"poe.ninja", "/api"⟩ rfl).2.2.2.2.2
      ⟨fun _ => 0, fun _ => none⟩ (fun _ => NetOutcome.timeout) (fun _ => 0) 5 rfl
      (fun i _ => rfl)⟩


/-! ## Claims about the orchestrator -/

lemma category_loop_skip_error (skip_base : Bool) (f : String → ℤ → Except String ℕ)
    (n : String) (i : ℤ) (e : String) (hf : f n i = Except.error e) :
    ∀ (xs ys : List (String × ℤ)),
      category_loop skip_base f (xs ++ (n, i) :: ys) = category_loop skip_base f (xs ++ ys) := by
  intro xs
  induction xs with
  | nil =>
    intro ys
    simp only [List.nil_append]
    by_cases hskip : skip_base ∧ i = 1
    · simp [category_loop, hskip]
    · simp [category_loop, hskip, hf]
  | cons p xs ih =>
    intro ys
    obtain ⟨pn, pi⟩ := p
    simp only [List.cons_append]
    by_cases hskip : skip_base ∧ pi = 1
    · rw [show ∀ l, category_loop skip_base f ((pn, pi) :: l) = category_loop skip_base f l
        from fun l => by simp [category_loop, hskip]]
      rw [show ∀ l, category_loop skip_base f ((pn, pi) :: l) = category_loop skip_base f l
        from fun l => by simp [category_loop, hskip]]
      exact ih ys
    · cases hfp : f pn pi with
      | error e2 => simp [category_loop, hskip, hfp, ih]
      | ok rr => simp [category_loop, hskip, hfp, ih]

lemma category_loop_count (skip_base : Bool) (f : String → ℤ → Except String ℕ) :
    ∀ m : List (String × ℤ),
      (category_loop skip_base f m).1 =
        (m.filter (fun (p : String × ℤ) =>
          !(skip_base && decide (p.2 = 1)) &&
            match f p.1 p.2 with
            | .ok records => decide (0 < records)
            | .error _ => false)).length := by
  intro m
  induction m with
  | nil => rfl
  | cons p rest ih =>
    obtain ⟨pn, pi⟩ := p
    by_cases hskip : skip_base ∧ pi = 1
    · obtain ⟨hsb, hpi⟩ := hskip
      subst hsb
      subst hpi
      simp [category_loop, List.filter, ih]
    · have hb : (!(skip_base && decide (pi = 1))) = true := by
        rcases Decidable.not_and_iff_or_not.mp hskip with h | h
        · simp [h]
        · simp [h]
      cases hfp : f pn pi with
      | error e2 => simp [category_loop, hskip, hfp, List.filter, hb, ih]
      | ok rr =>
        by_cases hrr : 0 < rr
        · simp [category_loop, hskip, hfp, List.filter, hb, hrr, ih]
        · simp [category_loop, hskip, hfp, List.filter, hb, hrr, ih]

lemma category_loop_zero (skip_base : Bool) (f : String → ℤ → Except String ℕ) :
    ∀ m : List (String × ℤ),
      (category_loop skip_base f m).2 = 0 → category_loop skip_base f m = (0, 0) := by
  intro m
  induction m with
  | nil => intro _; rfl
  | cons p rest ih =>
    obtain ⟨pn, pi⟩ := p
    intro h
    by_cases hskip : skip_base ∧ pi = 1
    · rw [show category_loop skip_base f ((pn, pi) :: rest) = category_loop skip_base f rest
        from by simp [category_loop, hskip]] at h ⊢
      exact ih h
    · cases hfp : f pn pi with
      | error e2 =>
        rw [show category_loop skip_base f ((pn, pi) :: rest) = category_loop skip_base f rest
          from by simp [category_loop, hskip, hfp]] at h ⊢
        exact ih h
      | ok rr =>
        by_cases hrr : 0 < rr
        · exfalso
          rw [show category_loop skip_base f ((pn, pi) :: rest) =
              ((category_loop skip_base f rest).1 + 1,
                (category_loop skip_base f rest).2 + rr)
            from by simp [category_loop, hskip, hfp, hrr]] at h
          simp at h
          omega
        · rw [show category_loop skip_base f ((pn, pi) :: rest) = category_loop skip_base f rest
            from by simp [category_loop, hskip, hfp, hrr]] at h ⊢
          exact ih h

lemma backfill_category_zero (catalog : Option (List Detail)) (existing_names : List String)
    (skip_base : Bool) (f : String → ℤ → Except String ℕ)
    (h : (backfill_category catalog existing_names skip_base f).2 = 0) :
    backfill_category catalog existing_names skip_base f = (0, 0) := by
  match catalog with
  | none => rfl
  | some details =>
    by_cases hd : details = []
    · simp [backfill_category, hd]
    · by_cases hm : map_names_to_ids details existing_names = []
      · simp [backfill_category, hd, hm]
      · have hcat : backfill_category (some details) existing_names skip_base f =
            category_loop skip_base f (map_names_to_ids details existing_names) := by
          simp [backfill_category, hd, hm]
        rw [hcat] at h ⊢
        exact category_loop_zero skip_base f _ h

/-- Claim C9: a failure confined to one category does not abort the run.  A
failed or empty catalog fetch, or an empty resolver map, yields `(0, 0)` for
that category; a per-entity error is caught and the loop proceeds to the next
entity; `backfill_all` always returns a per-category
`(entities_processed, records_written)` pair for all three categories; the
only aborting failure is a falsy league id at construction, which raises. -/
theorem claim_C9 :
    mk_backfiller none = Except.error "league not found" ∧
    (∀ (existing_names : List String) (skip_base : Bool)
        (f : String → ℤ → Except String ℕ),
      backfill_category none existing_names skip_base f = (0, 0)) ∧
    (∀ (existing_names : List String) (skip_base : Bool)
        (f : String → ℤ → Except String ℕ),
      backfill_category (some []) existing_names skip_base f = (0, 0)) ∧
    (∀ (details : List Detail) (existing_names : List String) (skip_base : Bool)
        (f : String → ℤ → Except String ℕ),
      map_names_to_ids details existing_names = [] →
      backfill_category (some details) existing_names skip_base f = (0, 0)) ∧
    (∀ (skip_base : Bool) (f : String → ℤ → Except String ℕ) (xs ys : List (String × ℤ))
        (n : String) (i : ℤ) (e : String),
      f n i = Except.error e →
      category_loop skip_base f (xs ++ (n, i) :: ys)
        = category_loop skip_base f (xs ++ ys)) ∧
    (∀ (currency_catalog card_catalog item_catalog : Option (List Detail))
        (currency_names card_names item_names : List String)
        (fc fd fi : String → ℤ → Except String ℕ),
      backfill_all currency_catalog card_catalog item_catalog currency_names card_names
          item_names fc fd fi =
        { currency := backfill_currency currency_catalog currency_names fc
          divination_cards := backfill_divination_cards card_catalog card_names fd
          unique_items := backfill_unique_items item_catalog item_names fi }) := by
  refine ⟨rfl, fun _ _ _ => rfl, fun _ _ _ => rfl, ?_, ?_, fun _ _ _ _ _ _ _ _ _ => rfl⟩
  · intro details existing_names skip_base f hmap
    by_cases hd : details = []
    · simp [backfill_category, hd]
    · simp [backfill_category, hd, hmap]
  · intro skip_base f xs ys n i e hf
    exact category_loop_skip_error skip_base f n i e hf xs ys

/-- Witness for `claim_C9`: a catalog entry with a falsy id resolves to an
empty map and the category yields `(0, 0)`; an entity whose backfill raises
is skipped and the loop's result equals that of the list without it. -/
theorem claim_C9_witness :
    backfill_category (some [⟨"Exalted Orb", none⟩]) [] true
        (fun _ _ => Except.error "boom") = (0, 0) ∧
    category_loop false (fun _ _ => Except.error "boom")
        ([("Exalted Orb", 2)] ++ ("Divine Orb", 3) :: [("Mirror of Kalandra", 4)])
      = category_loop false (fun _ _ => Except.error "boom")
          ([("Exalted Orb", 2)] ++ [("Mirror of Kalandra", 4)]) :=
  ⟨claim_C9.2.2.2.1 [⟨"Exalted Orb", none⟩] [] true (fun _ _ => Except.error "boom") rfl,
    claim_C9.2.2.2.2.1 false (fun _ _ => Except.error "boom") [("Exalted Orb", 2)]
      [("Mirror of Kalandra", 4)] "Divine Orb" 3 "boom" rfl⟩

/-- Claim C10: `entities_processed` counts exactly the matched entities whose
backfill returned a positive record count (skipped, erroring, and
zero-record entities do not increment it), and a category whose
`records_written` is zero reports the pair `(0, 0)`. -/
theorem claim_C10 :
    (∀ (skip_base : Bool) (f : String → ℤ → Except String ℕ) (m : List (String × ℤ)),
      (category_loop skip_base f m).1 =
        (m.filter (fun (p : String × ℤ) =>
          !(skip_base && decide (p.2 = 1)) &&
            match f p.1 p.2 with
            | .ok records => decide (0 < records)
            | .error _ => false)).length) ∧
    (∀ (skip_base : Bool) (f : String → ℤ → Except String ℕ) (m : List (String × ℤ)),
      (category_loop skip_base f m).2 = 0 → category_loop skip_base f m = (0, 0)) ∧
    (∀ (catalog : Option (List Detail)) (existing_names : List String) (skip_base : Bool)
        (f : String → ℤ → Except String ℕ),
      (backfill_category catalog existing_names skip_base f).2 = 0 →
      backfill_category catalog existing_names skip_base f = (0, 0)) :=
  ⟨fun skip_base f m => category_loop_count skip_base f m,
    fun skip_base f m => category_loop_zero skip_base f m,
    fun catalog existing_names skip_base f =>
      backfill_category_zero catalog existing_names skip_base f⟩

/-- Witness for `claim_C10`: an entity matched but yielding zero records is
not counted, so the category pair is `(0, 0)`. -/
theorem claim_C10_witness :
    category_loop false (fun _ _ => Except.ok 0) [("Exalted Orb", 2)] = (0, 0) ∧
    backfill_category (some [⟨"Exalted Orb", some 2⟩]) ["Exalted Orb"] false
        (fun _ _ => Except.ok 0) = (0, 0) :=
  ⟨claim_C10.2.1 false (fun _ _ => Except.ok 0) [("Exalted Orb", 2)] rfl,
    claim_C10.2.2 (some [⟨"Exalted Orb", some 2⟩]) ["Exalted Orb"] false
      (fun _ _ => Except.ok 0) rfl⟩

end PoEDA
